import Mathlib

/-!
# Verification of the dimension-selection engine (`src/main.py`)

Shallow embedding of the core of the Mini-Selector program:

* `EntryRow`, `select_best`  — the selection engine;
* `parse_length_to_meters`  — the length parser;
* `load_type_rows`          — the catalog loader with its tolerant header
  resolution (`get`) and per-row error recovery.

Python `float` values are modelled as exact rationals (`ℚ`); all the
concrete numeric values appearing in the specification are exactly
representable, so no rounding phenomena are relevant to the statements
proved here.  Python's `float(s)` string conversion is modelled by
`parseFloat?` for finite decimal literals (optional sign, digits with at
most one point, optional exponent); the special spellings `inf`/`nan` and
digit-group underscores are outside the fragment exercised by the program's
inputs and are not modelled.
-/

set_option autoImplicit false

namespace Brunnenkant

/-!
## Rational arithmetic helpers

The arithmetic operations of batteries' `Rat` are `@[irreducible]`, so the
embedding computes products, sums and quotients through `mkRat`, which the
kernel evaluates; `ratMul_eq`, `ratAdd_eq` and `ratDivNat_eq` (below, in
the theorem section) identify them with the ordinary field operations of
`ℚ`.
-/

/-- Exact product of two rationals, in kernel-evaluable form. -/
def ratMul (a b : ℚ) : ℚ := mkRat (a.num * b.num) (a.den * b.den)

/-- Exact sum of two rationals, in kernel-evaluable form. -/
def ratAdd (a b : ℚ) : ℚ := mkRat (a.num * b.den + b.num * a.den) (a.den * b.den)

/-- Exact quotient of a rational by a natural number, in kernel-evaluable
form. -/
def ratDivNat (a : ℚ) (n : ℕ) : ℚ := mkRat a.num (a.den * n)

/-! ## Model of Python `float(s)` -/

/-- Digits to a natural number, most significant first. -/
def digitsToNat (cs : List Char) : Nat :=
  cs.foldl (fun n c => n * 10 + (c.toNat - 48)) 0

/-- Mantissa value of an integer part and a fractional part, as a rational. -/
def mantissa (intPart fracPart : List Char) : ℚ :=
  mkRat (digitsToNat intPart * 10 ^ fracPart.length + digitsToNat fracPart)
    (10 ^ fracPart.length)

/-- Apply a decimal exponent to a rational. -/
def applyExp (m : ℚ) (esign : Bool) (e : Nat) : ℚ :=
  if esign then ratMul m (mkRat (10 ^ e) 1) else ratDivNat m (10 ^ e)

/-- Parse the optional exponent suffix (`e`/`E`, optional sign, digits) and
finish the conversion; `rest` must be exactly the exponent or empty. -/
def parseExpPart (sign : ℚ) (intPart fracPart : List Char) :
    List Char → Option ℚ
  | [] => some (ratMul sign (mantissa intPart fracPart))
  | c :: rest =>
    if c = 'e' ∨ c = 'E' then
      let (esign, rest2) : Bool × List Char :=
        match rest with
        | '-' :: r => (false, r)
        | '+' :: r => (true, r)
        | r => (true, r)
      let eds := rest2.takeWhile Char.isDigit
      if eds.isEmpty ∨ ¬ (rest2.dropWhile Char.isDigit).isEmpty then none
      else some (applyExp (ratMul sign (mantissa intPart fracPart)) esign
        (digitsToNat eds))
    else none

/-- Model of Python `float(s)` on finite decimal literals: optional sign,
then digits with at most one decimal point (at least one digit overall),
then an optional exponent.  Returns `none` exactly when Python raises
`ValueError` on such inputs. -/
def parseFloat? (s : String) : Option ℚ :=
  let cs := s.toList
  let (sign, cs1) : ℚ × List Char :=
    match cs with
    | '-' :: rest => (mkRat (-1) 1, rest)
    | '+' :: rest => (mkRat 1 1, rest)
    | rest => (mkRat 1 1, rest)
  let intPart := cs1.takeWhile Char.isDigit
  let cs2 := cs1.dropWhile Char.isDigit
  match cs2 with
  | '.' :: rest =>
    let fracPart := rest.takeWhile Char.isDigit
    let cs3 := rest.dropWhile Char.isDigit
    if intPart.isEmpty ∧ fracPart.isEmpty then none
    else parseExpPart sign intPart fracPart cs3
  | other =>
    if intPart.isEmpty then none else parseExpPart sign intPart [] other

/-! ## Data model (`EntryRow`, `select_best`) -/

/-- The dataclass `EntryRow` of `src/main.py`: exactly the four fields
`label`, `innen`, `cetta_max`, `cetta_pro_meter` (there is no `aussen`
field). -/
structure EntryRow where
  label : String
  innen : ℚ
  cetta_max : ℚ
  cetta_pro_meter : ℚ
deriving DecidableEq

/-- A Python attribute value of an `EntryRow` (strings or numbers). -/
inductive PyVal where
  | str (s : String)
  | num (q : ℚ)
deriving DecidableEq

/-- Python attribute access on an `EntryRow` instance: the dataclass
declares exactly `label`, `innen`, `cetta_max`, `cetta_pro_meter`; any
other attribute name raises `AttributeError` (modelled as `none`). -/
def EntryRow.attr (r : EntryRow) : String → Option PyVal
  | "label" => some (.str r.label)
  | "innen" => some (.num r.innen)
  | "cetta_max" => some (.num r.cetta_max)
  | "cetta_pro_meter" => some (.num r.cetta_pro_meter)
  | _ => none

/-- `EntryRow.key` of the source: `return (self.aussen, self.innen)`.
Attribute lookups are modelled through `EntryRow.attr`; a failed lookup is
Python's `AttributeError`, carried as `Except.error` (the first failing
lookup, evaluated left to right, determines the message). -/
def EntryRow.key (r : EntryRow) : Except String (PyVal × PyVal) :=
  match r.attr "aussen" with
  | none => .error "AttributeError: EntryRow object has no attribute aussen"
  | some a =>
    match r.attr "innen" with
    | none => .error "AttributeError: EntryRow object has no attribute innen"
    | some b => .ok (a, b)

/-- The tolerance `1e-12` of `select_best` (the Python float closest to
`10 ^ (-12)`; modelled as the exact rational, which agrees on every value
relevant here). -/
def eps : ℚ := mkRat 1 (10 ^ 12)

/-- The result dictionary of `select_best`: keys `status`, `row`,
`required_cetta`, `message`. -/
structure SelectResult where
  status : String
  row : Option EntryRow
  required_cetta : ℚ
  message : String
deriving DecidableEq

/-- The no-fit message of `select_best`. -/
def noFitMsg : String :=
  "Bei kleinster möglicher Außen: keiner (kein Eintrag deckt den Bedarf)"

/-- `select_best(rows, length_m)` of `src/main.py`: if `rows` is empty,
status `none` with no row; otherwise scan `rows` in order and return the
first row `r` with `r.cetta_max + 1e-12 >= length_m * r.cetta_pro_meter`
(status `ok`), else status `none` with `rows[0]` as reference and its own
recomputed requirement. -/
def select_best (rows : List EntryRow) (length_m : ℚ) : SelectResult :=
  match rows with
  | [] =>
    { status := "none", row := none, required_cetta := 0,
      message := "Keine Datenzeilen vorhanden." }
  | smallest :: _ =>
    match rows.find? (fun r =>
        decide (ratMul length_m r.cetta_pro_meter ≤ ratAdd r.cetta_max eps)) with
    | some chosen =>
      { status := "ok", row := some chosen,
        required_cetta := ratMul length_m chosen.cetta_pro_meter, message := "OK" }
    | none =>
      { status := "none", row := some smallest,
        required_cetta := ratMul length_m smallest.cetta_pro_meter,
        message := noFitMsg }

/-- Row `r` covers the requirement of length `l` with its own rate
(the loop condition of `select_best`):
`r.cetta_max + 1e-12 >= length_m * r.cetta_pro_meter`. -/
def covers (l : ℚ) (r : EntryRow) : Prop :=
  l * r.cetta_pro_meter ≤ r.cetta_max + eps

instance (l : ℚ) (r : EntryRow) : Decidable (covers l r) := by
  unfold covers; infer_instance

/-- The result of `select_best` reports a fit (`status == "ok"`). -/
def SelectResult.isFit (res : SelectResult) : Prop := res.status = "ok"

/-- The result of `select_best` reports no fit over a non-empty catalog
(`status == "none"` with a reference row). -/
def SelectResult.isNoFit (res : SelectResult) : Prop :=
  res.status = "none" ∧ res.row ≠ none

/-- The result of `select_best` reports an empty catalog
(`status == "none"` with no row). -/
def SelectResult.isEmptyRes (res : SelectResult) : Prop :=
  res.status = "none" ∧ res.row = none

/-! ## Length parser -/

/-- The text transformation of `parse_length_to_meters`:
`text.replace(" ", "").replace(",", ".")`.  Both patterns are single
characters, so Python's replace-all is a character-wise filter/map. -/
def pyTransformLength (text : String) : String :=
  String.mk ((text.toList.filter (fun c => c ≠ ' ')).map
    (fun c => if c = ',' then '.' else c))

/-- `parse_length_to_meters(text, unit)` of `src/main.py`: empty text
(falsy in Python) is invalid; otherwise strip all spaces, turn commas into
points, convert with `float` (failure is invalid); unit `m` keeps the
value, `cm` divides by 100, anything else is invalid. -/
def parse_length_to_meters (text : String) (unit : String) : Option ℚ :=
  if text = "" then none
  else
    match parseFloat? (pyTransformLength text) with
    | none => none
    | some val =>
      if unit = "m" then some val
      else if unit = "cm" then some (ratDivNat val 100)
      else none

/-! ## Catalog loader (`load_type_rows` and its header resolution `get`) -/

/-- Python `str.strip()` with no argument: drop whitespace from both ends
(`Char.isWhitespace` covers the whitespace actually occurring in catalog
data). -/
def pyStrip (s : String) : String :=
  String.mk
    (((s.toList.dropWhile Char.isWhitespace).reverse.dropWhile
      Char.isWhitespace).reverse)

/-- Replace all non-overlapping occurrences of `pat` by `repl`, scanning left
to right (Python `str.replace`); the fuel argument is the input length. -/
def replaceAux (pat repl : List Char) : Nat → List Char → List Char
  | 0, s => s
  | _ + 1, [] => []
  | n + 1, c :: rest =>
    if ¬ pat.isEmpty ∧ pat.isPrefixOf (c :: rest) then
      repl ++ replaceAux pat repl n ((c :: rest).drop pat.length)
    else c :: replaceAux pat repl n rest

/-- `s.replace(pat, repl)` of Python, for non-empty patterns. -/
def strReplace (s pat repl : String) : String :=
  String.mk (replaceAux pat.toList repl.toList s.toList.length s.toList)

/-- Substring test (the Python `in` operator on strings). -/
def containsSub : List Char → List Char → Bool
  | n, [] => n.isEmpty
  | n, h :: t => n.isPrefixOf (h :: t) || containsSub n t

/-- `needle in hay` of Python. -/
def strContains (hay needle : String) : Bool := containsSub needle.toList hay.toList

/-- The header normalisation `norm` of `load_type_rows`:
`s.strip().lower().replace(" ", "")`.  `strip` is modelled by `pyStrip`
and `lower` by the ASCII `Char.toLower` (the headers exercised here contain
no cased non-ASCII letters). -/
def norm (s : String) : String :=
  String.mk (((pyStrip s).toList.map Char.toLower).filter (fun c => c ≠ ' '))

/-- One insertion step of the dict comprehension
`{norm(h): h for h in reader.fieldnames}`: a repeated key overwrites its
value in place, a new key is appended (Python dict insertion order). -/
def hmInsert (m : List (String × String)) (k v : String) : List (String × String) :=
  if m.any (fun p => p.1 = k) then m.map (fun p => if p.1 = k then (k, v) else p)
  else m ++ [(k, v)]

/-- The `header_map` dict of `load_type_rows`, in insertion order. -/
def header_map (fieldnames : List String) : List (String × String) :=
  fieldnames.foldl (fun m h => hmInsert m (norm h) h) []

/-- Dict lookup in `header_map`. -/
def hmFind (m : List (String × String)) (k : String) : Option String :=
  (m.find? (fun p => p.1 = k)).map (fun p => p.2)

/-- One iteration of the candidate loop of `get`: exact membership test,
then the same candidate with `außen` transliterated to `aussen`. -/
def tryCandidate (m : List (String × String)) (c : String) : Option String :=
  match hmFind m c with
  | some h => some h
  | none => hmFind m (strReplace c "außen" "aussen")

/-- Column resolution of `get` in `load_type_rows`: candidates are the
logical name itself, then with `ß` replaced by `ss`, then with underscores
removed; each candidate is tried exactly and in its `aussen` spelling; if
none matches, fall back to a substring search of the underscore-free
logical name over the normalised header keys, in dict order. -/
def resolveColumn (m : List (String × String)) (logical : String) : Option String :=
  match tryCandidate m logical with
  | some h => some h
  | none =>
    match tryCandidate m (strReplace logical "ß" "ss") with
    | some h => some h
    | none =>
      match tryCandidate m (strReplace logical "_" "") with
      | some h => some h
      | none =>
        (m.find? (fun p => strContains p.1 (strReplace logical "_" ""))).map
          (fun p => p.2)

/-- The `KeyError` message of `get`:
`Spalte [logical] nicht gefunden. Vorhandene: [header names]` (the Python
original quotes the column name and prints the values as a Python list;
that punctuation is elided here). -/
def keyErrorMsg (m : List (String × String)) (logical : String) : String :=
  "Spalte " ++ logical ++ " nicht gefunden. Vorhandene: " ++
    String.intercalate ", " (m.map (fun p => p.2))

/-- `csv.DictReader` row access: the row dict is built from the header
names and the row values; a duplicated header name keeps the last value,
and a short row is padded with the rendered rest value `None`. -/
def rowGet (fieldnames vals : List String) (name : String) : String :=
  let padded := vals ++ List.replicate (fieldnames.length - vals.length) "None"
  match (fieldnames.zip padded).reverse.find? (fun p => p.1 = name) with
  | some p => p.2
  | none => "None"

/-- `get(row, logical)` of `load_type_rows`: resolve the column against the
header map and read the row at the resolved header name (the resolved name
is always a real header name, so the row access itself cannot fail); an
unresolved column raises `KeyError`. -/
def getField (fieldnames : List String) (m : List (String × String))
    (vals : List String) (logical : String) : Except String String :=
  match resolveColumn m logical with
  | some h => .ok (rowGet fieldnames vals h)
  | none => .error (keyErrorMsg m logical)

/-- Numeric field conversion of a row value:
`float(str(v).strip().replace(",", "."))`. -/
def pyFloatField (v : String) : Option ℚ :=
  parseFloat?
    (String.mk ((pyStrip v).toList.map (fun c => if c = ',' then '.' else c)))

/-- The `ValueError` message of a failed `float` conversion. -/
def valueErrorMsg (v : String) : String :=
  "ValueError: could not convert string to float: " ++ v

/-- Numeric field conversion as an exception-carrying computation. -/
def toFloatE (v : String) : Except String ℚ :=
  match pyFloatField v with
  | some q => .ok q
  | none => .error (valueErrorMsg v)

/-- The body of the row loop of `load_type_rows`, in source order: read and
strip the label, then read and convert `innen`, `cetta_max`,
`cetta_pro_meter`; the first raised exception aborts the row. -/
def rowParse (fieldnames : List String) (m : List (String × String))
    (vals : List String) : Except String EntryRow :=
  match getField fieldnames m vals "außen" with
  | .error e => .error e
  | .ok labelRaw =>
    match getField fieldnames m vals "innen" with
    | .error e => .error e
    | .ok innenRaw =>
      match toFloatE innenRaw with
      | .error e => .error e
      | .ok innen =>
        match getField fieldnames m vals "cetta_max" with
        | .error e => .error e
        | .ok cmaxRaw =>
          match toFloatE cmaxRaw with
          | .error e => .error e
          | .ok cetta_max =>
            match getField fieldnames m vals "cetta_pro_meter" with
            | .error e => .error e
            | .ok cpmRaw =>
              match toFloatE cpmRaw with
              | .error e => .error e
              | .ok cetta_pm =>
                .ok ⟨pyStrip labelRaw, innen, cetta_max, cetta_pm⟩

/-- A per-row diagnostic of `load_type_rows` (the `[WARN]` print): the
1-based source line number (the header is line 1, so enumeration starts at
2), the exception message, and the raw row. -/
structure RowDiag where
  line : Nat
  msg : String
  raw : List String
deriving DecidableEq

/-- A catalog file as seen by `csv.DictReader`: a header row and data rows. -/
structure CSVFile where
  header : List String
  rows : List (List String)
deriving DecidableEq

/-- The row loop of `load_type_rows`: parsed rows are appended in source
order, a failing row is skipped and recorded as a diagnostic. -/
def loadRows (fieldnames : List String) (m : List (String × String)) :
    Nat → List (List String) → List EntryRow × List RowDiag
  | _, [] => ([], [])
  | i, vals :: rest =>
    let res := loadRows fieldnames m (i + 1) rest
    match rowParse fieldnames m vals with
    | .ok r => (r :: res.1, res.2)
    | .error e => (res.1, ⟨i, e, vals⟩ :: res.2)

/-- `load_type_rows` on a present catalog file: build the header map and
run the row loop with line enumeration starting at 2. -/
def load_type_rows (f : CSVFile) : List EntryRow × List RowDiag :=
  loadRows f.header (header_map f.header) 2 f.rows

/-- `load_type_rows` including its missing-file guard: a catalog identifier
with no backing file (`os.path.isfile` false, modelled as `none`) yields
the empty row list before any reading happens. -/
def loadCatalog : Option CSVFile → List EntryRow × List RowDiag
  | none => ([], [])
  | some f => load_type_rows f

/-- `Except` to `Option`, forgetting the message. -/
def okValue? {α : Type} (e : Except String α) : Option α :=
  match e with
  | .ok a => some a
  | .error _ => none

/-- All rows of a list parse successfully, collecting the records in
order (used to phrase hypotheses about well-formed row blocks). -/
def parseRowsAll (fieldnames : List String) (m : List (String × String)) :
    List (List String) → Option (List EntryRow)
  | [] => some []
  | v :: rest =>
    match rowParse fieldnames m v with
    | .error _ => none
    | .ok r =>
      match parseRowsAll fieldnames m rest with
      | none => none
      | some rs => some (r :: rs)

/-! ## Concrete fixtures (the worked examples of the specification) -/

/-- First record of the specification's example catalog. -/
def exRow1 : EntryRow := ⟨"10x1", 8, 1, mkRat 1 2⟩

/-- Second record of the specification's example catalog. -/
def exRow2 : EntryRow := ⟨"22x1", 20, 3, 1⟩

/-- A catalog file whose header lacks any column resolvable as
`cetta_max`. -/
def missingColFile : CSVFile :=
  ⟨["außen", "innen", "cetta_pro_meter"],
   [["10x1", "8", "0.5"], ["22x1", "20", "1.0"]]⟩

/-- A catalog file whose header lacks any column resolvable as the outer
label `außen`. -/
def missingAussenFile : CSVFile :=
  ⟨["innen", "cetta_max", "cetta_pro_meter"], [["8", "1.0", "0.5"]]⟩

/-- A catalog file whose middle row has a non-numeric `cetta_max`. -/
def oneBadRowFile : CSVFile :=
  ⟨["außen", "innen", "cetta_max", "cetta_pro_meter"],
   [["10x1", "8", "1.0", "0.5"],
    ["15x1", "13", "oops", "0.8"],
    ["22x1", "20", "3.0", "1.0"]]⟩

/-! ## General lemmas -/

theorem ratMul_eq (a b : ℚ) : ratMul a b = a * b := by
  rw [ratMul, Rat.mkRat_eq_divInt, Rat.divInt_eq_div]
  push_cast
  rw [← div_mul_div_comm, Rat.num_div_den, Rat.num_div_den]

theorem ratAdd_eq (a b : ℚ) : ratAdd a b = a + b := by
  have ha : ((a.den : ℚ)) ≠ 0 := Nat.cast_ne_zero.mpr a.den_nz
  have hb : ((b.den : ℚ)) ≠ 0 := Nat.cast_ne_zero.mpr b.den_nz
  rw [ratAdd, Rat.mkRat_eq_divInt, Rat.divInt_eq_div]
  push_cast
  conv_rhs => rw [← Rat.num_div_den a, ← Rat.num_div_den b]
  rw [div_add_div _ _ ha hb]
  ring_nf

theorem ratDivNat_eq (a : ℚ) (n : ℕ) : ratDivNat a n = a / n := by
  rcases Nat.eq_zero_or_pos n with hn | hn
  · subst hn
    simp [ratDivNat]
  · rw [ratDivNat, Rat.mkRat_eq_divInt, Rat.divInt_eq_div]
    push_cast
    rw [← div_div, Rat.num_div_den]

theorem mkRat_eq_div (n : ℤ) (d : ℕ) : mkRat n d = (n : ℚ) / (d : ℚ) := by
  rw [Rat.mkRat_eq_divInt, Rat.divInt_eq_div]
  norm_cast

theorem eps_eq : eps = 1 / 10 ^ 12 := by
  rw [eps, mkRat_eq_div]
  norm_num

/-- The scan condition of `select_best`, as a Boolean, decides `covers`. -/
theorem covers_decide (l : ℚ) (r : EntryRow) :
    decide (ratMul l r.cetta_pro_meter ≤ ratAdd r.cetta_max eps) =
      decide (covers l r) := by
  simp only [covers, ratMul_eq, ratAdd_eq]

/-- `covers` in the kernel-evaluable form of the scan condition. -/
theorem covers_iff (l : ℚ) (r : EntryRow) :
    covers l r ↔ ratMul l r.cetta_pro_meter ≤ ratAdd r.cetta_max eps := by
  simp only [covers, ratMul_eq, ratAdd_eq]

theorem find?_covers (l : ℚ) (rows : List EntryRow) :
    rows.find? (fun r =>
      decide (ratMul l r.cetta_pro_meter ≤ ratAdd r.cetta_max eps)) =
    rows.find? (fun r => decide (covers l r)) := by
  congr 1
  funext r
  exact covers_decide l r

/-- `select_best` on a non-empty catalog, phrased through `covers`. -/
theorem select_best_cons (smallest : EntryRow) (rest : List EntryRow) (l : ℚ) :
    select_best (smallest :: rest) l =
      match (smallest :: rest).find? (fun r => decide (covers l r)) with
      | some chosen =>
        { status := "ok", row := some chosen,
          required_cetta := l * chosen.cetta_pro_meter, message := "OK" }
      | none =>
        { status := "none", row := some smallest,
          required_cetta := l * smallest.cetta_pro_meter, message := noFitMsg } := by
  simp only [select_best]
  rw [find?_covers]
  cases h : (smallest :: rest).find? (fun r => decide (covers l r)) with
  | none => simp [ratMul_eq]
  | some chosen => simp [ratMul_eq]

theorem find?_append_none {α : Type} (p : α → Bool) :
    ∀ (pre rest : List α), (∀ x ∈ pre, p x = false) →
      (pre ++ rest).find? p = rest.find? p := by
  intro pre
  induction pre with
  | nil => intro rest _; rfl
  | cons a t ih =>
    intro rest h
    have ha : ¬ (p a = true) := by
      simp [h a (List.mem_cons_self a t)]
    rw [List.cons_append, List.find?_cons_of_neg _ ha]
    exact ih rest (fun x hx => h x (List.mem_cons_of_mem a hx))

/-- The record component of the row loop is the in-order `filterMap` of the
per-row parser: source order is preserved and nothing is ever re-sorted. -/
theorem loadRows_records (fieldnames : List String) (m : List (String × String)) :
    ∀ (i : Nat) (rowsL : List (List String)),
      (loadRows fieldnames m i rowsL).1 =
        rowsL.filterMap (fun v => okValue? (rowParse fieldnames m v)) := by
  intro i rowsL
  induction rowsL generalizing i with
  | nil => rfl
  | cons v rest ih =>
    simp only [loadRows, List.filterMap_cons]
    cases h : rowParse fieldnames m v with
    | ok r => simp [okValue?, h, ih (i + 1)]
    | error e => simp [okValue?, h, ih (i + 1)]

/-- A block of rows that all parse loads exactly as its records, with no
diagnostics. -/
theorem loadRows_ok_block (fieldnames : List String) (m : List (String × String)) :
    ∀ (rowsL : List (List String)) (recs : List EntryRow) (i : Nat),
      parseRowsAll fieldnames m rowsL = some recs →
      loadRows fieldnames m i rowsL = (recs, []) := by
  intro rowsL
  induction rowsL with
  | nil =>
    intro recs i h
    simp only [parseRowsAll] at h
    injection h with h
    subst h
    rfl
  | cons v rest ih =>
    intro recs i h
    simp only [parseRowsAll] at h
    cases hv : rowParse fieldnames m v with
    | error e => rw [hv] at h; cases h
    | ok r =>
      rw [hv] at h
      cases hr : parseRowsAll fieldnames m rest with
      | none => rw [hr] at h; cases h
      | some rs =>
        rw [hr] at h
        injection h with h
        subst h
        simp only [loadRows, hv]
        rw [ih rs (i + 1) hr]

/-- Splitting the row loop around a single failing row. -/
theorem loadRows_split (fieldnames : List String) (m : List (String × String)) :
    ∀ (pre : List (List String)) (i : Nat) (bad : List String)
      (post : List (List String)) (preRecs postRecs : List EntryRow) (e : String),
      parseRowsAll fieldnames m pre = some preRecs →
      rowParse fieldnames m bad = .error e →
      parseRowsAll fieldnames m post = some postRecs →
      loadRows fieldnames m i (pre ++ bad :: post) =
        (preRecs ++ postRecs, [⟨i + pre.length, e, bad⟩]) := by
  intro pre
  induction pre with
  | nil =>
    intro i bad post preRecs postRecs e hpre hbad hpost
    simp only [parseRowsAll] at hpre
    injection hpre with hpre
    subst hpre
    rw [List.nil_append]
    simp only [loadRows, hbad, loadRows_ok_block fieldnames m post postRecs (i + 1) hpost]
    simp
  | cons v rest ih =>
    intro i bad post preRecs postRecs e hpre hbad hpost
    simp only [parseRowsAll] at hpre
    cases hv : rowParse fieldnames m v with
    | error e2 => rw [hv] at hpre; cases hpre
    | ok r =>
      rw [hv] at hpre
      cases hr : parseRowsAll fieldnames m rest with
      | none => rw [hr] at hpre; cases hpre
      | some rs =>
        rw [hr] at hpre
        injection hpre with hpre
        subst hpre
        rw [List.cons_append]
        simp only [loadRows, hv, ih (i + 1) bad post rs postRecs e hr hbad hpost]
        rw [show i + 1 + rest.length = i + (rest.length + 1) from by omega]
        simp

/-- If any of the four required logical columns is unresolvable, every row
raises (at the latest when that column's lookup runs) and produces no
record. -/
theorem rowParse_none_of_unresolvable (fieldnames : List String)
    (m : List (String × String)) (logical : String)
    (hmem : logical ∈ ["außen", "innen", "cetta_max", "cetta_pro_meter"])
    (h : resolveColumn m logical = none) (vals : List String) :
    okValue? (rowParse fieldnames m vals) = none := by
  have hg : getField fieldnames m vals logical =
      .error (keyErrorMsg m logical) := by
    unfold getField
    rw [h]
  have hmem2 : logical = "außen" ∨ logical = "innen" ∨
      logical = "cetta_max" ∨ logical = "cetta_pro_meter" := by
    simpa using hmem
  rcases hmem2 with rfl | rfl | rfl | rfl
  · unfold rowParse
    rw [hg]
    rfl
  · unfold rowParse
    rw [hg]
    split <;> rfl
  · unfold rowParse
    rw [hg]
    split
    · rfl
    · split
      · rfl
      · split <;> rfl
  · unfold rowParse
    rw [hg]
    split
    · rfl
    · split
      · rfl
      · split
        · rfl
        · split
          · rfl
          · split <;> rfl

/-- If every row fails to parse, the loop returns no records and one
diagnostic per source row, carrying the row numbers and raw rows. -/
theorem loadRows_all_error (fieldnames : List String) (m : List (String × String))
    (h : ∀ vals, okValue? (rowParse fieldnames m vals) = none) :
    ∀ (i : Nat) (rowsL : List (List String)),
      (loadRows fieldnames m i rowsL).1 = [] ∧
      (loadRows fieldnames m i rowsL).2.map (fun d => d.raw) = rowsL ∧
      (loadRows fieldnames m i rowsL).2.map (fun d => d.line) =
        List.range' i rowsL.length := by
  intro i rowsL
  induction rowsL generalizing i with
  | nil => exact ⟨rfl, rfl, rfl⟩
  | cons v rest ih =>
    obtain ⟨ih1, ih2, ih3⟩ := ih (i + 1)
    cases he : rowParse fieldnames m v with
    | ok r =>
      have hv := h v
      rw [he] at hv
      cases hv
    | error e =>
      simp only [loadRows, he]
      refine ⟨ih1, ?_, ?_⟩
      · rw [List.map_cons, ih2]
      · rw [List.map_cons, ih3, List.length_cons]
        rfl

/-! ## Claim theorems -/

/-- C1: on a non-empty catalog, `select_best` returns `Fit{r, required}`
where `r` is the first record in catalog order whose `cetta_max` plus the
fixed tolerance covers its own requirement
`required = length_m * r.cetta_pro_meter`; every earlier record fails its
own requirement, so a later-ordered record that also satisfies its own
requirement is never returned. -/
theorem select_best_first_fit (length_m : ℚ) (pre post : List EntryRow)
    (r : EntryRow) (hpre : ∀ p ∈ pre, ¬ covers length_m p)
    (hr : covers length_m r) :
    select_best (pre ++ r :: post) length_m =
      { status := "ok", row := some r,
        required_cetta := length_m * r.cetta_pro_meter, message := "OK" } := by
  have hfind : (pre ++ r :: post).find? (fun x => decide (covers length_m x)) =
      some r := by
    rw [find?_append_none _ pre (r :: post)
      (fun x hx => decide_eq_false (hpre x hx))]
    exact List.find?_cons_of_pos _ (decide_eq_true hr)
  cases pre with
  | nil =>
    rw [List.nil_append] at hfind ⊢
    rw [select_best_cons, hfind]
  | cons a t =>
    rw [List.cons_append] at hfind ⊢
    rw [select_best_cons, hfind]

/-- Witness for C1 at the specification's example catalog with length 3:
the first record fails its own requirement, the second satisfies it and is
returned as the fit. -/
theorem select_best_first_fit_witness :
    ¬ covers 3 exRow1 ∧ covers 3 exRow2 ∧
    select_best ([exRow1] ++ exRow2 :: []) 3 =
      { status := "ok", row := some exRow2,
        required_cetta := 3 * exRow2.cetta_pro_meter, message := "OK" } := by
  have h1 : ¬ covers 3 exRow1 := by
    rw [covers_iff]
    decide
  have h2 : covers 3 exRow2 := by
    rw [covers_iff]
    decide
  refine ⟨h1, h2, select_best_first_fit 3 [exRow1] [] exRow2 ?_ h2⟩
  intro p hp
  rw [List.mem_singleton] at hp
  subst hp
  exact h1

/-- C2: `select_best` is a total function and its result is exactly one of
the three variants — `Fit` (`status = "ok"`), `NoFit` (`status = "none"`
with a reference row), `Empty` (`status = "none"` with no row) — and the
`Empty` variant occurs precisely for the empty catalog. -/
theorem select_best_exactly_one_variant (rows : List EntryRow) (l : ℚ) :
    ((select_best rows l).isFit ∨ (select_best rows l).isNoFit ∨
      (select_best rows l).isEmptyRes) ∧
    ¬ ((select_best rows l).isFit ∧ (select_best rows l).isNoFit) ∧
    ¬ ((select_best rows l).isFit ∧ (select_best rows l).isEmptyRes) ∧
    ¬ ((select_best rows l).isNoFit ∧ (select_best rows l).isEmptyRes) ∧
    (rows = [] ↔ (select_best rows l).isEmptyRes) := by
  cases rows with
  | nil =>
    simp [select_best, SelectResult.isFit, SelectResult.isNoFit,
      SelectResult.isEmptyRes]
  | cons a t =>
    rw [select_best_cons]
    cases h : (a :: t).find? (fun r => decide (covers l r)) with
    | some chosen =>
      simp [SelectResult.isFit, SelectResult.isNoFit, SelectResult.isEmptyRes]
    | none =>
      simp [SelectResult.isFit, SelectResult.isNoFit, SelectResult.isEmptyRes]

/-- C3: on a non-empty catalog, `select_best` reports `NoFit` exactly when
no record covers its own per-record requirement, and in that case the
reference row is the catalog's first record with the requirement recomputed
from that record's own rate. -/
theorem select_best_nofit (l : ℚ) (r0 : EntryRow) (rest : List EntryRow) :
    ((select_best (r0 :: rest) l).isNoFit ↔ ∀ r ∈ r0 :: rest, ¬ covers l r) ∧
    ((∀ r ∈ r0 :: rest, ¬ covers l r) →
      select_best (r0 :: rest) l =
        { status := "none", row := some r0,
          required_cetta := l * r0.cetta_pro_meter, message := noFitMsg }) := by
  have hnone : (r0 :: rest).find? (fun r => decide (covers l r)) = none ↔
      ∀ r ∈ r0 :: rest, ¬ covers l r := by
    rw [List.find?_eq_none]
    simp
  constructor
  · rw [select_best_cons]
    cases h : (r0 :: rest).find? (fun r => decide (covers l r)) with
    | some chosen =>
      simp only [SelectResult.isNoFit]
      constructor
      · intro hcon
        exact absurd hcon.1 (by decide)
      · intro hall
        rw [hnone.mpr hall] at h
        cases h
    | none =>
      simp only [SelectResult.isNoFit]
      constructor
      · intro _
        exact hnone.mp h
      · intro _
        simp
  · intro hall
    rw [select_best_cons, hnone.mpr hall]

/-- Witness for C3 at the specification's example catalog with length 10:
no record covers its own requirement, so the result is `NoFit` referencing
the first record with requirement `10 * 0.5 = 5`. -/
theorem select_best_nofit_witness :
    select_best (exRow1 :: [exRow2]) 10 =
      { status := "none", row := some exRow1,
        required_cetta := 10 * exRow1.cetta_pro_meter, message := noFitMsg } := by
  refine (select_best_nofit 10 exRow1 [exRow2]).2 ?_
  intro r hr
  rw [covers_iff]
  rcases List.mem_cons.mp hr with h | h
  · subst h
    decide
  · rw [List.mem_singleton] at h
    subst h
    decide

/-- C4: on the two-record example catalog, length 2.0 yields
`Fit{"10x1", 1.0}` (the exact-equality boundary `1.0 >= 1.0` is accepted
within the tolerance) and length 10.0 yields `NoFit{"10x1", 5.0}`. -/
theorem select_best_example_catalog :
    select_best [exRow1, exRow2] 2 =
      { status := "ok", row := some exRow1, required_cetta := 1,
        message := "OK" } ∧
    select_best [exRow1, exRow2] 10 =
      { status := "none", row := some exRow1, required_cetta := 5,
        message := noFitMsg } := by
  decide

/-- C5: the length parser accepts decimal comma and decimal point
interchangeably, keeps the parsed value for unit `m`, divides by 100 for
unit `cm`, and is invalid for non-numeric text or any unit outside
`{m, cm}`; concretely `parseLength("80,034", cm) = 0.80034`,
`parseLength("1.5", m) = 1.5`, `parseLength("abc", m)` is invalid, and
`parseLength("-1", m) = -1.0` (the parser accepts it; positivity is the
caller's concern). -/
theorem parse_length_tolerant :
    (∀ t u, u ≠ "m" → u ≠ "cm" → parse_length_to_meters t u = none) ∧
    (∀ t, parseFloat? (pyTransformLength t) = none →
      ∀ u, parse_length_to_meters t u = none) ∧
    (∀ t v, parseFloat? (pyTransformLength t) = some v →
      parse_length_to_meters t "m" = some v ∧
      parse_length_to_meters t "cm" = some (v / 100)) ∧
    parse_length_to_meters "80,034" "cm" = some (80034 / 100000 : ℚ) ∧
    parse_length_to_meters "1.5" "m" = some (3 / 2 : ℚ) ∧
    parse_length_to_meters "abc" "m" = none ∧
    parse_length_to_meters "-1" "m" = some (-1 : ℚ) := by
  refine ⟨?_, ?_, ?_, ?_, ?_, ?_, ?_⟩
  · intro t u h1 h2
    unfold parse_length_to_meters
    split
    · rfl
    · cases parseFloat? (pyTransformLength t) with
      | none => rfl
      | some v => simp [h1, h2]
  · intro t h u
    unfold parse_length_to_meters
    split
    · rfl
    · rw [h]
  · intro t v h
    have ht : ¬ (t = "") := by
      intro h0
      subst h0
      exact Option.noConfusion
        ((by decide : parseFloat? (pyTransformLength "") = (none : Option ℚ)).symm.trans h)
    constructor
    · unfold parse_length_to_meters
      rw [if_neg ht, h]
      simp
    · unfold parse_length_to_meters
      rw [if_neg ht, h]
      show (if "cm" = "m" then some v
        else if "cm" = "cm" then some (ratDivNat v 100) else none) = some (v / 100)
      rw [if_neg (by decide : ¬ ("cm" = "m")), if_pos rfl, ratDivNat_eq]
      norm_num
  · rw [show (80034 / 100000 : ℚ) = mkRat 80034 100000 from by
      rw [mkRat_eq_div]; norm_num]
    decide
  · rw [show (3 / 2 : ℚ) = mkRat 3 2 from by rw [mkRat_eq_div]; norm_num]
    decide
  · decide
  · rw [show (-1 : ℚ) = mkRat (-1) 1 from by rw [mkRat_eq_div]; norm_num]
    decide

/-- Witness for C5: a unit outside the enumerated set is invalid, and a
decimal-comma text in `cm` is parsed and divided by 100. -/
theorem parse_length_tolerant_witness :
    parse_length_to_meters "7" "feet" = none ∧
    parse_length_to_meters "2,5" "cm" = some (mkRat 5 2 / 100) := by
  constructor
  · exact parse_length_tolerant.1 "7" "feet" (by decide) (by decide)
  · exact (parse_length_tolerant.2.2.1 "2,5" (mkRat 5 2) (by decide)).2

/-- C6 counterexample: on a catalog file whose header has no column
resolvable as `cetta_max`, `load_type_rows` does NOT fail as a whole —
the per-row `except` catches the `KeyError`, every data row is skipped
individually (one diagnostic per row, each carrying the missing-field
message), and the load returns an empty record list. -/
theorem load_missing_column_counterexample :
    (load_type_rows missingColFile).1 = [] ∧
    (load_type_rows missingColFile).2 =
      [⟨2, keyErrorMsg (header_map missingColFile.header) "cetta_max",
        ["10x1", "8", "0.5"]⟩,
       ⟨3, keyErrorMsg (header_map missingColFile.header) "cetta_max",
        ["22x1", "20", "1.0"]⟩] := by
  decide

/-- C6 (amended): if any required logical column (`außen`, `innen`,
`cetta_max`, or `cetta_pro_meter`) cannot be resolved against the header,
each row's lookup raises a `KeyError` naming the missing field and the
headers present, but `load_type_rows` catches it per row: every data row
is skipped with a diagnostic (line numbers 2, 3, … and the raw row), and
the load returns an empty record list instead of failing as a whole. -/
theorem load_unresolvable_column_skips_every_row (f : CSVFile)
    (logical : String)
    (hmem : logical ∈ ["außen", "innen", "cetta_max", "cetta_pro_meter"])
    (h : resolveColumn (header_map f.header) logical = none) :
    (load_type_rows f).1 = [] ∧
    (load_type_rows f).2.map (fun d => d.raw) = f.rows ∧
    (load_type_rows f).2.map (fun d => d.line) =
      List.range' 2 f.rows.length :=
  loadRows_all_error f.header (header_map f.header)
    (rowParse_none_of_unresolvable f.header (header_map f.header) logical
      hmem h) 2 f.rows

/-- Witness for the amended C6, exercised at two different missing
columns: a file whose header lacks `cetta_max` and a file whose header
lacks the outer label `außen`. -/
theorem load_unresolvable_column_witness :
    ((load_type_rows missingColFile).1 = [] ∧
     (load_type_rows missingColFile).2.map (fun d => d.raw) =
       missingColFile.rows ∧
     (load_type_rows missingColFile).2.map (fun d => d.line) =
       List.range' 2 missingColFile.rows.length) ∧
    ((load_type_rows missingAussenFile).1 = [] ∧
     (load_type_rows missingAussenFile).2.map (fun d => d.raw) =
       missingAussenFile.rows ∧
     (load_type_rows missingAussenFile).2.map (fun d => d.line) =
       List.range' 2 missingAussenFile.rows.length) :=
  ⟨load_unresolvable_column_skips_every_row missingColFile "cetta_max"
    (by decide) (by decide),
   load_unresolvable_column_skips_every_row missingAussenFile "außen"
    (by decide) (by decide)⟩

/-- C7: if exactly one data row fails its numeric parse, `load_type_rows`
never throws: it skips only that row, records one diagnostic carrying the
row's 1-based source line number (header counted as line 1, so data row
`k` is line `k + 2` for 0-based `k`) and the raw row content, and returns
all remaining rows parsed intact in source order. -/
theorem load_single_bad_row (f : CSVFile) (pre post : List (List String))
    (bad : List String) (preRecs postRecs : List EntryRow) (e : String)
    (hrows : f.rows = pre ++ bad :: post)
    (hpre : parseRowsAll f.header (header_map f.header) pre = some preRecs)
    (hbad : rowParse f.header (header_map f.header) bad = .error e)
    (hpost : parseRowsAll f.header (header_map f.header) post = some postRecs) :
    load_type_rows f = (preRecs ++ postRecs, [⟨pre.length + 2, e, bad⟩]) := by
  unfold load_type_rows
  rw [hrows, loadRows_split f.header (header_map f.header) pre 2 bad post
    preRecs postRecs e hpre hbad hpost, Nat.add_comm]

/-- Witness for C7 at a concrete file whose middle row has a non-numeric
`cetta_max`: only that row is dropped (line 3, raw content reported), the
other two rows survive in order. -/
theorem load_single_bad_row_witness :
    load_type_rows oneBadRowFile =
      ([⟨"10x1", 8, 1, mkRat 1 2⟩, ⟨"22x1", 20, 3, 1⟩],
       [⟨3, valueErrorMsg "oops", ["15x1", "13", "oops", "0.8"]⟩]) := by
  have h := load_single_bad_row oneBadRowFile
    [["10x1", "8", "1.0", "0.5"]] [["22x1", "20", "3.0", "1.0"]]
    ["15x1", "13", "oops", "0.8"]
    [⟨"10x1", 8, 1, mkRat 1 2⟩] [⟨"22x1", 20, 3, 1⟩] (valueErrorMsg "oops")
    (by decide) (by decide) (by rfl) (by decide)
  exact h

/-- C8: a catalog identifier with no backing file loads as an empty
catalog (no error), indistinguishable at the load interface from a present
file with a header and no data rows. -/
theorem load_missing_catalog_empty :
    loadCatalog none = ([], []) ∧
    ∀ header, loadCatalog (some ⟨header, []⟩) = loadCatalog none :=
  ⟨rfl, fun _ => rfl⟩

/-- C9: `EntryRow.key` always fails — it reads the attribute `aussen`,
which the dataclass (fields `label`, `innen`, `cetta_max`,
`cetta_pro_meter`) does not define — and no operation sorts the catalog:
the loaded record list is exactly the in-order `filterMap` of the per-row
parser over the source rows, i.e. the scan order is the source-file row
order. -/
theorem entry_key_fails_and_scan_order_is_source_order :
    (∀ r : EntryRow, ∃ msg, r.key = .error msg) ∧
    (∀ f : CSVFile, (load_type_rows f).1 =
      f.rows.filterMap
        (fun v => okValue? (rowParse f.header (header_map f.header) v))) := by
  constructor
  · intro r
    exact ⟨"AttributeError: EntryRow object has no attribute aussen", rfl⟩
  · intro f
    exact loadRows_records f.header (header_map f.header) 2 f.rows

/-- C10: the length parser removes every space character, including
interior ones, before the numeric parse: `"1 234,5"` parses exactly like
`"1234,5"`, to 1234.5, instead of being invalid. -/
theorem parse_length_removes_interior_spaces :
    parse_length_to_meters "1 234,5" "m" = some (12345 / 10 : ℚ) ∧
    parse_length_to_meters "1 234,5" "m" =
      parse_length_to_meters "1234,5" "m" := by
  constructor
  · rw [show (12345 / 10 : ℚ) = mkRat 12345 10 from by
      rw [mkRat_eq_div]; norm_num]
    decide
  · decide

end Brunnenkant
